import Mathlib

/-!
Shallow embedding of `spike/single_subject_pipeline.py` from the
pypreprocess repository, together with theorems settling the claims
about `do_subject_preproc`.

The pipeline orchestrates slice-timing correction, anatomical-to-functional
coregistration, motion correction, smoothing, design-matrix construction,
contrast computation and statistical-map persistence for a single subject.
External collaborators (nipy, nibabel, joblib, the registration algorithms)
are modelled as abstract functions packaged in a `Collab` record; cached
calls are modelled by the list of cache keys (stage identity plus the exact
arguments that joblib would hash) issued during a run.
-/

namespace SSP

/-- Mat4 is the type of 4 by 4 rational matrices, modelling the numpy 4x4
affine arrays used for volume affines and rigid-body transforms. -/
abbrev Mat4 := Matrix (Fin 4) (Fin 4) ℚ

/-- Fwhm models the three-component smoothing kernel width passed as `fwhm`. -/
abbrev Fwhm := ℚ × ℚ × ℚ

/-- Modelled from the spec: translation part of the rigid-body transform
built by `spm_matrix` (the file `algorithms/registration/affine_transformations.py`
is not part of the sources under inspection). -/
def transMat (x y z : ℚ) : Mat4 :=
  !![1, 0, 0, x; 0, 1, 0, y; 0, 0, 1, z; 0, 0, 0, 1]

/-- Modelled from the spec: rotation of the rigid-body transform about the
first axis, with the cosine and sine of the angle supplied as values. -/
def rotX (c s : ℚ) : Mat4 :=
  !![1, 0, 0, 0; 0, c, s, 0; 0, -s, c, 0; 0, 0, 0, 1]

/-- Modelled from the spec: rotation about the second axis. -/
def rotY (c s : ℚ) : Mat4 :=
  !![c, 0, s, 0; 0, 1, 0, 0; -s, 0, c, 0; 0, 0, 0, 1]

/-- Modelled from the spec: rotation about the third axis. -/
def rotZ (c s : ℚ) : Mat4 :=
  !![c, s, 0, 0; -s, c, 0, 0; 0, 0, 1, 0; 0, 0, 0, 1]

/-- Modelled from the spec: `spm_matrix` composes a rigid-body transform
(translation followed by the three elementary rotations) from a 6-parameter
vector `q`.  The trigonometric functions are abstracted as `c` and `s`
because the embedding works over ℚ; the identity parameter vector together
with `c 0 = 1` and `s 0 = 0` yields the identity matrix. -/
def spm_matrix (c s : ℚ → ℚ) (q : Fin 6 → ℚ) : Mat4 :=
  transMat (q 0) (q 1) (q 2) *
    (rotX (c (q 3)) (s (q 3)) * (rotY (c (q 4)) (s (q 4)) * rotZ (c (q 5)) (s (q 5))))

lemma transMat_zero : transMat 0 0 0 = 1 := by decide

lemma rotX_id : rotX 1 0 = 1 := by decide

lemma rotY_id : rotY 1 0 = 1 := by decide

lemma rotZ_id : rotZ 1 0 = 1 := by decide

lemma spm_matrix_zero (c s : ℚ → ℚ) (hc : c 0 = 1) (hs : s 0 = 0) :
    spm_matrix c s 0 = 1 := by
  simp only [spm_matrix, Pi.zero_apply, hc, hs, transMat_zero, rotX_id, rotY_id,
    rotZ_id, one_mul]

/-- Ref models a functional volume reference (a file path, or the artifact
produced from one by a pipeline stage writing into an output directory). -/
inductive Ref where
  | raw (path : String)
  | stc (slice_order : String) (interleaved : Bool) (output_dir : String) (src : Ref)
  | mc (n_sessions : ℕ) (output_dir : String) (src : Ref)
  | smoothedSaved (output_dir : String) (basenames : List String) (pfx : String)
      (fwhm : Fwhm) (src : Ref)
deriving DecidableEq, Repr

/-- CacheKey records one `mem.cache(...)` call: the cached callable together
with the exact arguments joblib would hash.  The two `transform` calls are
keyed by the inputs of the corresponding `fit` as well, because the fitted
object passed to them is a deterministic function of those inputs. -/
inductive CacheKey where
  | stcFit (slice_order : String) (interleaved : Bool) (raw_data : Ref)
  | stcTransform (slice_order : String) (interleaved : Bool) (raw_data : Ref)
      (output_dir : String)
  | coregEst (vol0 : Ref) (anat_path : String)
  | mcFit (n_sessions : ℕ) (funcs : List Ref)
  | mcTransform (n_sessions : ℕ) (funcs : List Ref) (output_dir : String)
      (reslice : Bool)
  | smoothImage (func : Ref) (fwhm : Fwhm)
deriving DecidableEq, Repr

/-- AnatVol models a loaded anatomical volume: its path, voxel data
(abstracted as a list of rationals) and 4x4 affine. -/
structure AnatVol where
  path : String
  data : List ℚ
  affine : Mat4
deriving DecidableEq

/-- StatMaps models the quadruple of images returned by one
`fmri_glm.contrast(...)` call; the images themselves are opaque handles. -/
structure StatMaps where
  z_map : String
  t_map : String
  eff_map : String
  var_map : String
deriving DecidableEq, Repr

/-- Collab packages the external collaborators of the pipeline: the
trigonometric functions used by `spm_matrix`, the coregistration estimator
`spm_coreg`, `get_basenames`, `np.loadtxt`, the number of drift columns the
external design-matrix builder appends, and the per-contrast map extraction
performed by the fitted linear model (which may fail). -/
structure Collab where
  cosq : ℚ → ℚ
  sinq : ℚ → ℚ
  spm_coreg : Ref → String → Fin 6 → ℚ
  get_basenames : Ref → List String
  loadtxt : String → List (List ℚ)
  n_drift : ℕ
  extract : String → Except String StatMaps

/-- Config mirrors the keyword parameters of `do_subject_preproc`. -/
structure Config where
  n_sessions : ℕ
  do_stc : Bool
  slice_order : String
  interleaved : Bool
  ref_slice : ℕ
  do_mc : Bool
  reg_motion : Bool
  do_coreg : Bool
  fwhm : Option Fwhm
  stats_output_dir_basename : String

/-- SubjectData mirrors the `subject_data` dictionary: subject id, one
functional volume reference per session, the anatomical volume and the
output directory. -/
structure SubjectData where
  subject_id : String
  func : List Ref
  anat : AnatVol
  output_dir : String

/-- path_join models `os.path.join` with a relative second component. -/
def path_join (a b : String) : String := a ++ "/" ++ b

/-- basename models `os.path.basename`. -/
def basename (p : String) : String := (p.splitOn "/").getLastD p

/-- vol0 models `_load_specific_vol(output['func'][0], 0)[0]`: the first
volume of the first session of the current functional data. -/
def vol0 (funcs : List Ref) : Ref := funcs.headD (Ref.raw "")

/-- matInv is the explicit (computable) inverse of a 4x4 rational matrix via
the adjugate.  It realizes `scipy.linalg.lstsq(M, A)[0]` for the invertible
rigid-body matrices `M` produced by `spm_matrix`, for which the unique
least-squares solution of `M X = A` is the exact solution `M_inverse * A`. -/
def matInv (M : Mat4) : Mat4 := M.det⁻¹ • M.adjugate

lemma matInv_one : matInv 1 = 1 := by
  simp [matInv]

/-- lstsq models `scipy.linalg.lstsq(M, A)[0]` (see `matInv`). -/
def lstsq (M A : Mat4) : Mat4 := matInv M * A

/-- stcStage models the slice-timing-correction loop: per session, a cached
`fMRISTC(...).fit` call followed by a cached `transform` call writing into
the subject's output directory.  It returns the corrected volume references
and the cache keys issued, in program order. -/
def stcStage (slice_order : String) (interleaved : Bool) (output_dir : String)
    (funcs : List Ref) : List Ref × List CacheKey :=
  (funcs.map (Ref.stc slice_order interleaved output_dir),
   funcs.flatMap (fun f =>
     [CacheKey.stcFit slice_order interleaved f,
      CacheKey.stcTransform slice_order interleaved f output_dir]))

/-- rp_path models the realignment-parameter text file
`mrimc_output['realignment_parameters'][0]` written by motion correction. -/
def rp_path (output_dir : String) : String := path_join output_dir "rp_1.txt"

/-- mcStage models the motion-correction block: a cached
`MRIMotionCorrection(n_sessions=...).fit` on the current functional data and
a cached `transform` with `reslice=True`.  It returns the realigned volume
references, the realignment-parameter file of the first session, and the
cache keys issued. -/
def mcStage (n_sessions : ℕ) (output_dir : String) (funcs : List Ref) :
    List Ref × String × List CacheKey :=
  (funcs.map (Ref.mc n_sessions output_dir), rp_path output_dir,
   [CacheKey.mcFit n_sessions funcs,
    CacheKey.mcTransform n_sessions funcs output_dir true])

/-- smoothStage models the smoothing loop: when `fwhm` is set, each session
is smoothed by a cached `smooth_image(func, fwhm)` call and saved with
`_save_vols(..., basenames=get_basenames(output['func'][0]), prefix='s')`.
Note the basenames argument always comes from the first session. -/
def smoothStage (cb : Collab) (output_dir : String) (fwhm : Option Fwhm)
    (funcs : List Ref) : List Ref × List CacheKey :=
  match fwhm with
  | none => (funcs, [])
  | some f =>
      (funcs.map (fun fn =>
        Ref.smoothedSaved output_dir (cb.get_basenames (vol0 funcs)) "s" f fn),
       funcs.map (fun fn => CacheKey.smoothImage fn f))

/-- PreSmooth is the pipeline state after slice-timing correction,
coregistration and motion correction, before smoothing and the GLM. -/
structure PreSmooth where
  func : List Ref
  anat : AnatVol
  q : Fin 6 → ℚ
  rp : Option String
  add_regs : Option (List (List ℚ))
  keys : List CacheKey

/-- preSmoothRun models `do_subject_preproc` up to (and excluding)
smoothing: the optional STC block, the unconditional coregistration block
(cached `spm_coreg`, then `_save_vol` of the anatomical data under the
affine `lstsq(spm_matrix(q0), anat_affine)`), and the optional MC block
(loading the realignment parameters as nuisance regressors when
`reg_motion` is set). -/
def preSmoothRun (cb : Collab) (sd : SubjectData) (cfg : Config) : PreSmooth :=
  let stcRes := if cfg.do_stc then
      stcStage cfg.slice_order cfg.interleaved sd.output_dir sd.func
    else (sd.func, [])
  let func1 := stcRes.1
  let q0 := cb.spm_coreg (vol0 func1) sd.anat.path
  let M := spm_matrix cb.cosq cb.sinq q0
  let anat1 : AnatVol :=
    { path := path_join sd.output_dir (basename sd.anat.path),
      data := sd.anat.data,
      affine := lstsq M sd.anat.affine }
  let coregKey := CacheKey.coregEst (vol0 func1) sd.anat.path
  let mcRes := if cfg.do_mc then
      some (mcStage cfg.n_sessions sd.output_dir func1)
    else none
  let func2 := match mcRes with
    | none => func1
    | some m => m.1
  let rp : Option String := match mcRes with
    | none => none
    | some m => some m.2.1
  let addRegs : Option (List (List ℚ)) := match mcRes, cfg.reg_motion with
    | some m, true => some (cb.loadtxt m.2.1)
    | _, _ => none
  { func := func2, anat := anat1, q := q0, rp := rp, add_regs := addRegs,
    keys := stcRes.2 ++ [coregKey] ++ (match mcRes with
      | none => []
      | some m => m.2.2) }

/-! GLM section: the paradigm constants, the design-matrix column layout,
the contrast dictionary, and the statistical-map persistence loop. -/

/-- tr is the repetition time hard-coded in the source (`tr = 7.`). -/
def tr : ℚ := 7

/-- n_scans is the scan count hard-coded in the source (`n_scans = 96`). -/
def n_scans : ℕ := 96

/-- durationBlocks is the source's `_duration = 6` (in scans). -/
def durationBlocks : ℚ := 6

/-- epoch_duration is `_duration * tr`. -/
def epoch_duration : ℚ := durationBlocks * tr

/-- conditions is `['rest', 'active'] * 8`. -/
def conditions : List String := List.flatten (List.replicate 8 ["rest", "active"])

/-- duration is `epoch_duration * np.ones(len(conditions))`. -/
def duration : List ℚ := conditions.map (fun _ => epoch_duration)

/-- linspace models `np.linspace(a, b, n)`. -/
def linspace (a b : ℚ) (n : ℕ) : List ℚ :=
  (List.range n).map (fun i => a + (b - a) * i / ((n : ℚ) - 1))

/-- onset is `np.linspace(0, (len(conditions) - 1) * epoch_duration, len(conditions))`. -/
def onset : List ℚ :=
  linspace 0 (((conditions.length : ℚ) - 1) * epoch_duration) conditions.length

/-- hfcut is `2 * 2 * epoch_duration`. -/
def hfcut : ℚ := 2 * 2 * epoch_duration

/-- strLeB is a total kernel-reducible order on strings (lexicographic on
code points), standing in for the ordering `np.unique` sorts by. -/
def strLeB (a b : String) : Bool :=
  decide (a.data.map Char.toNat ≤ b.data.map Char.toNat)

/-- insertSorted inserts into a sorted list, for `np_unique`. -/
def insertSorted (x : String) : List String → List String
  | [] => [x]
  | y :: ys => if strLeB x y then x :: y :: ys else y :: insertSorted x ys

/-- np_unique models `np.unique` on a list of condition labels: the sorted
list of distinct labels.  `BlockParadigm.n_conditions` and the condition
column order of the external design-matrix builder follow it. -/
def np_unique (l : List String) : List String := (l.foldr insertSorted []).dedup

/-- n_conditions models `paradigm.n_conditions`: the number of distinct
condition labels. -/
def n_conditions : ℕ := (np_unique conditions).length

/-- Modelled from the spec: the condition-related design-matrix columns
produced by the external builder (`make_dmtx` of nipy, an out-of-scope
collaborator) under the hemodynamic response model with temporal
derivatives: one main-effect column followed by one derivative column per
distinct condition, in `np.unique` order. -/
def cond_names : List String :=
  (np_unique conditions).flatMap (fun c => [c, c ++ "_derivative"])

/-- Modelled from the spec: names of the nuisance-regressor columns the
external builder appends for the supplied motion parameters (one column per
column of the `add_regs` matrix). -/
def reg_names (n : ℕ) : List String :=
  (List.range n).map (fun i => "reg" ++ toString i)

/-- Modelled from the spec: names of the drift-basis columns the external
builder appends. -/
def drift_names (n : ℕ) : List String :=
  (List.range n).map (fun i => "drift_" ++ toString i)

/-- Modelled from the spec: `design_matrix.names`, the ordered column names
of the design matrix: condition columns, then nuisance columns for
`add_regs` (none when `add_regs is None`), then drift columns. -/
def dmtx_names (add_regs : Option (List (List ℚ))) (nDrift : ℕ) : List String :=
  cond_names ++
    reg_names (match add_regs with
      | none => 0
      | some rs => (rs.headD []).length) ++
    drift_names nDrift

/-- eyeRow models `np.eye(n)[i]`: the i-th standard basis row vector. -/
def eyeRow (n i : ℕ) : List ℚ :=
  (List.range n).map (fun j => if j = i then 1 else 0)

/-- vsub is elementwise subtraction of contrast vectors
(`contrasts['active'] - contrasts['rest']`). -/
def vsub (a b : List ℚ) : List ℚ := List.zipWith (fun x y => x - y) a b

/-- base_contrasts models the loop
`for i in xrange(paradigm.n_conditions): contrasts[names[2 * i]] = np.eye(n_columns)[2 * i]`
as an ordered association list. -/
def base_contrasts (names : List String) : List (String × List ℚ) :=
  (List.range n_conditions).map
    (fun i => (names.getD (2 * i) "", eyeRow names.length (2 * i)))

/-- lookupC models reading `contrasts[k]` from the association list. -/
def lookupC (cs : List (String × List ℚ)) (k : String) : List ℚ :=
  (cs.find? (fun p => p.1 == k)).elim [] Prod.snd

/-- all_contrasts models the final contrast dictionary: the per-condition
one-hot contrasts plus `contrasts['active-rest'] = contrasts['active'] - contrasts['rest']`. -/
def all_contrasts (names : List String) : List (String × List ℚ) :=
  base_contrasts names ++
    [("active-rest",
      vsub (lookupC (base_contrasts names) "active")
           (lookupC (base_contrasts names) "rest"))]

/-- map_types is the fixed list `['z', 't', 'effects', 'variance']`. -/
def map_types : List String := ["z", "t", "effects", "variance"]

/-- map_dir models `os.path.join(stats_output_dir, '%s_maps' % dtype)`. -/
def map_dir (statsDir dtype : String) : String :=
  path_join statsDir (dtype ++ "_maps")

/-- map_path models `os.path.join(map_dir, '%s.nii.gz' % contrast_id)`. -/
def map_path (statsDir dtype cid : String) : String :=
  path_join (map_dir statsDir dtype) (cid ++ ".nii.gz")

/-- ensure_dir models `if not os.path.exists(map_dir): os.makedirs(map_dir)`
on a filesystem state given as the list of existing directories. -/
def ensure_dir (fs : List String) (d : String) : List String :=
  if d ∈ fs then fs else fs ++ [d]

/-- contrast_map_pairs models
`zip(['z', 't', 'effects', 'variance'], [z_map, t_map, eff_map, var_map])`. -/
def contrast_map_pairs (maps : StatMaps) : List (String × String) :=
  List.zip map_types [maps.z_map, maps.t_map, maps.eff_map, maps.var_map]

/-- saveContrast models the inner persistence loop over the four map types
for one contrast: create the per-map-type directory if absent and save the
map at `<stats_output_dir>/<dtype>_maps/<contrast_id>.nii.gz`.  It returns
the new directory state and the list of (path, image) pairs written. -/
def saveContrast : List String → String → String → List (String × String) →
    List String × List (String × String)
  | fs, _, _, [] => (fs, [])
  | fs, statsDir, cid, (dtype, img) :: rest =>
    let fs1 := ensure_dir fs (map_dir statsDir dtype)
    let r := saveContrast fs1 statsDir cid rest
    (r.1, (map_path statsDir dtype cid, img) :: r.2)

/-- contrastLoop models the outer loop over contrast ids: each iteration
calls the fallible extraction `fmri_glm.contrast(...)` and, on success,
persists the four maps.  The source wraps nothing in a try/except, so an
extraction error propagates: the loop stops, returning the files persisted
so far and the error. -/
def contrastLoop (extract : String → Except String StatMaps) (statsDir : String) :
    List String → List String → List String × List (String × String) × Option String
  | fs, [] => (fs, [], none)
  | fs, cid :: rest =>
    match extract cid with
    | Except.error e => (fs, [], some e)
    | Except.ok maps =>
      let s := saveContrast fs statsDir cid (contrast_map_pairs maps)
      let r := contrastLoop extract statsDir s.1 rest
      (r.1, s.2 ++ r.2.1, r.2.2)

/-- OutputBundle is the bundle the spec says the entry point returns:
functional volume references, realignment parameters and stat map paths. -/
structure OutputBundle where
  func : List Ref
  realignment_parameters : Option String
  stat_map_paths : List String

/-- PipelineResult is the observable outcome of one `do_subject_preproc`
invocation: the internal output dictionary fields, the cache keys issued,
the paradigm constants used for the GLM, the design-matrix column names,
the contrast dictionary, the created directories and persisted map files,
and the value the Python function returns to its caller. -/
structure PipelineResult where
  func_before_smoothing : List Ref
  output_func : List Ref
  output_anat : AnatVol
  realignment_parameters : Option String
  coreg_q : Fin 6 → ℚ
  pre_smoothing_keys : List CacheKey
  cache_keys : List CacheKey
  add_regs : Option (List (List ℚ))
  glm_tr : ℚ
  glm_n_scans : ℕ
  glm_conditions : List String
  glm_duration : List ℚ
  glm_onset : List ℚ
  glm_hfcut : ℚ
  dmtx_names_used : List String
  contrast_dict : List (String × List ℚ)
  dirs : List String
  saved_maps : List (String × String)
  stats_error : Option String
  return_value : Option OutputBundle

/-- do_subject_preproc is the embedding of the Python entry point: STC,
coregistration and MC (via `preSmoothRun`), then smoothing, then the GLM
with its hard-coded paradigm, contrast computation and map persistence.
The Python function body ends with a print statement and has no return
statement, so the value returned to the caller is `none`. -/
def do_subject_preproc (cb : Collab) (sd : SubjectData) (cfg : Config) :
    PipelineResult :=
  let statsDir := path_join sd.output_dir cfg.stats_output_dir_basename
  let dirs0 := ensure_dir [] statsDir
  let pre := preSmoothRun cb sd cfg
  let sm := smoothStage cb sd.output_dir cfg.fwhm pre.func
  let names := dmtx_names pre.add_regs cb.n_drift
  let cs := all_contrasts names
  let loopRes := contrastLoop cb.extract statsDir dirs0 (cs.map Prod.fst)
  { func_before_smoothing := pre.func,
    output_func := sm.1,
    output_anat := pre.anat,
    realignment_parameters := pre.rp,
    coreg_q := pre.q,
    pre_smoothing_keys := pre.keys,
    cache_keys := pre.keys ++ sm.2,
    add_regs := pre.add_regs,
    glm_tr := tr,
    glm_n_scans := n_scans,
    glm_conditions := conditions,
    glm_duration := duration,
    glm_onset := onset,
    glm_hfcut := hfcut,
    dmtx_names_used := names,
    contrast_dict := cs,
    dirs := loopRes.1,
    saved_maps := loopRes.2.1,
    stats_error := loopRes.2.2,
    return_value := none }

/-- misses lists the cached calls of a run that are not found in a warm
cache (joblib recomputes exactly these). -/
def misses (cache keys : List CacheKey) : List CacheKey :=
  keys.filter (fun k => decide (k ∉ cache))

/-- basenames_used reads back the `basenames` argument a saved smoothed
volume was written with. -/
def basenames_used : Ref → List String
  | Ref.smoothedSaved _ bs _ _ _ => bs
  | _ => []

/-- pfx_used reads back the prefix argument a saved smoothed volume was
written with. -/
def pfx_used : Ref → Option String
  | Ref.smoothedSaved _ _ p _ _ => some p
  | _ => none

/-- bad_extract is a concrete extraction collaborator that fails on the
contrast `active` and succeeds elsewhere. -/
def bad_extract : String → Except String StatMaps :=
  fun cid => if cid = "active" then Except.error "extraction failed"
    else Except.ok ⟨"zimg", "timg", "eimg", "vimg"⟩

/-- cb0 is a concrete collaborator assignment used to evaluate theorems on
closed inputs. -/
def cb0 : Collab where
  cosq := fun _ => 1
  sinq := fun _ => 0
  spm_coreg := fun _ _ => 0
  get_basenames := fun r => match r with
    | Ref.raw p => [basename p]
    | _ => []
  loadtxt := fun _ => [[0, 0, 0, 0, 0, 0]]
  n_drift := 8
  extract := fun _ => Except.ok ⟨"zimg", "timg", "eimg", "vimg"⟩

/-- sd0 is a concrete single-session subject. -/
def sd0 : SubjectData where
  subject_id := "sub001"
  func := [Ref.raw "data/func1.nii"]
  anat := { path := "data/anat.nii", data := [1, 2, 3], affine := 1 }
  output_dir := "out"

/-- sd2 is a concrete two-session subject whose sessions have distinct
basenames. -/
def sd2 : SubjectData where
  subject_id := "sub002"
  func := [Ref.raw "data/func1.nii", Ref.raw "data/func2.nii"]
  anat := { path := "data/anat.nii", data := [1], affine := 1 }
  output_dir := "out"

/-- cfg0 is the default configuration of the Python signature. -/
def cfg0 : Config where
  n_sessions := 1
  do_stc := true
  slice_order := "ascending"
  interleaved := false
  ref_slice := 0
  do_mc := true
  reg_motion := true
  do_coreg := true
  fwhm := none
  stats_output_dir_basename := ""

/-- cfgOff disables STC, MC and smoothing. -/
def cfgOff : Config :=
  { cfg0 with do_stc := false, do_mc := false, fwhm := none }

/-- cfgSmooth disables STC and MC but smooths, with two sessions. -/
def cfgSmooth : Config :=
  { cfg0 with
    n_sessions := 2
    do_stc := false
    do_mc := false
    fwhm := some (5, 5, 5) }

lemma mem_ensure_dir_self (fs : List String) (d : String) :
    d ∈ ensure_dir fs d := by
  by_cases h : d ∈ fs <;> simp [ensure_dir, h]

lemma mem_ensure_dir_of_mem (fs : List String) (d a : String) (h : a ∈ fs) :
    a ∈ ensure_dir fs d := by
  by_cases hd : d ∈ fs <;> simp [ensure_dir, hd, h]

lemma misses_append (l ext : List CacheKey) : misses (l ++ ext) l = [] := by
  refine List.filter_eq_nil_iff.mpr ?_
  intro a ha
  have : a ∈ l ++ ext := List.mem_append_left ext ha
  simp [this]

/-- C1: the coregistered anatomical volume produced by `do_subject_preproc`
keeps the input voxel data unchanged, stores the affine
`solve(spm_matrix(q), original_affine)` for the estimated parameter vector
`q`, and for the identity (all-zero) parameter vector the stored affine
equals the original affine. -/
theorem claim_C1_coreg_affine (cb : Collab) (sd : SubjectData) (cfg : Config)
    (hc : cb.cosq 0 = 1) (hs : cb.sinq 0 = 0) :
    (do_subject_preproc cb sd cfg).output_anat.data = sd.anat.data ∧
    (do_subject_preproc cb sd cfg).output_anat.affine =
      lstsq (spm_matrix cb.cosq cb.sinq (do_subject_preproc cb sd cfg).coreg_q)
        sd.anat.affine ∧
    ((do_subject_preproc cb sd cfg).coreg_q = 0 →
      (do_subject_preproc cb sd cfg).output_anat.affine = sd.anat.affine) := by
  refine ⟨rfl, rfl, fun hq => ?_⟩
  show lstsq (spm_matrix cb.cosq cb.sinq (do_subject_preproc cb sd cfg).coreg_q)
      sd.anat.affine = sd.anat.affine
  rw [hq, spm_matrix_zero cb.cosq cb.sinq hc hs]
  simp [lstsq, matInv_one]

/-- C1 witness: the theorem evaluated at a concrete collaborator whose
estimated parameter vector is all-zero, on a concrete subject. -/
theorem claim_C1_coreg_affine_witness :
    (do_subject_preproc cb0 sd0 cfg0).output_anat.data = sd0.anat.data ∧
    (do_subject_preproc cb0 sd0 cfg0).output_anat.affine = sd0.anat.affine :=
  ⟨(claim_C1_coreg_affine cb0 sd0 cfg0 rfl rfl).1,
   (claim_C1_coreg_affine cb0 sd0 cfg0 rfl rfl).2.2 rfl⟩

/-- C2: two invocations whose configurations differ only in `fwhm` issue
identical cached calls (identical arguments) for the slice-timing,
coregistration and motion-correction stages, so with the first run's cache
warm the second run has no cache misses on those stages. -/
theorem claim_C2_fwhm_change_hits_cache (cb : Collab) (sd : SubjectData)
    (cfg : Config) (f1 f2 : Option Fwhm) :
    (do_subject_preproc cb sd { cfg with fwhm := f1 }).pre_smoothing_keys =
      (do_subject_preproc cb sd { cfg with fwhm := f2 }).pre_smoothing_keys ∧
    misses (do_subject_preproc cb sd { cfg with fwhm := f1 }).cache_keys
      (do_subject_preproc cb sd { cfg with fwhm := f2 }).pre_smoothing_keys = [] :=
  ⟨rfl, misses_append _ _⟩

/-- C3 counterexample: with an extraction that fails on the contrast
`active`, the subsequent contrast `rest` is not persisted (its z map path
is absent from the files written by the loop), refuting the claim that a
per-contrast extraction error never aborts the loop over the remaining
contrasts. -/
theorem claim_C3_counterexample :
    bad_extract "active" = Except.error "extraction failed" ∧
    map_path "stats" "z" "rest" ∉
      ((contrastLoop bad_extract "stats" ["stats"] ["active", "rest"]).2.1.map
        Prod.fst) :=
  ⟨rfl, by decide⟩

/-- C3 amended: a per-contrast extraction error aborts the loop over the
remaining contrasts: the failing contrast and every subsequent contrast are
not persisted and the error propagates (maps persisted before the failure
remain on disk). -/
theorem claim_C3_error_aborts_loop (extract : String → Except String StatMaps)
    (statsDir : String) (fs : List String) (cid e : String)
    (rest : List String) (h : extract cid = Except.error e) :
    contrastLoop extract statsDir fs (cid :: rest) = (fs, [], some e) := by
  simp [contrastLoop, h]

/-- C3 witness: the amended theorem evaluated on the concrete failing
extraction. -/
theorem claim_C3_error_aborts_loop_witness :
    contrastLoop bad_extract "stats" ["stats"] ["active", "rest"] =
      (["stats"], [], some "extraction failed") :=
  claim_C3_error_aborts_loop bad_extract "stats" ["stats"] "active"
    "extraction failed" ["rest"] rfl

/-- C4 counterexample: a run that completes successfully (no extraction
error) still returns `none` to its caller, refuting the claim that
`do_subject_preproc` returns the final output bundle. -/
theorem claim_C4_counterexample :
    (do_subject_preproc cb0 sd0 cfg0).stats_error = none ∧
    (do_subject_preproc cb0 sd0 cfg0).return_value = none :=
  ⟨by decide, rfl⟩

/-- C4 amended: `do_subject_preproc` assembles the output bundle internally
and persists its artifacts to disk, but has no return statement: it returns
`None` to the caller on every invocation. -/
theorem claim_C4_returns_none (cb : Collab) (sd : SubjectData) (cfg : Config) :
    (do_subject_preproc cb sd cfg).return_value = none := rfl

/-- C5: with `do_mc=False`, the design matrix is built with `add_regs`
still `None` even when `reg_motion=True`, and its columns are exactly the
condition columns plus drift columns (no nuisance columns are substituted,
and the design-matrix construction still completes). -/
theorem claim_C5_no_mc_add_regs_none (cb : Collab) (sd : SubjectData)
    (cfg : Config) (h : cfg.do_mc = false) :
    (do_subject_preproc cb sd { cfg with reg_motion := true }).add_regs = none ∧
    (do_subject_preproc cb sd { cfg with reg_motion := true }).dmtx_names_used =
      cond_names ++ drift_names cb.n_drift := by
  have ha : (preSmoothRun cb sd { cfg with reg_motion := true }).add_regs = none := by
    simp [preSmoothRun, h]
  constructor
  · exact ha
  · show dmtx_names (preSmoothRun cb sd { cfg with reg_motion := true }).add_regs
        cb.n_drift = cond_names ++ drift_names cb.n_drift
    rw [ha]
    simp [dmtx_names, reg_names]

/-- C5 witness: the theorem evaluated on a concrete configuration with
motion correction disabled and motion regressors requested. -/
theorem claim_C5_no_mc_add_regs_none_witness :
    (do_subject_preproc cb0 sd0 { cfgOff with reg_motion := true }).add_regs = none ∧
    (do_subject_preproc cb0 sd0 { cfgOff with reg_motion := true }).dmtx_names_used =
      cond_names ++ drift_names cb0.n_drift :=
  claim_C5_no_mc_add_regs_none cb0 sd0 cfgOff rfl

/-- C6: with STC and MC disabled and no smoothing, the output functional
volume references equal the input references unchanged, while
coregistration still runs for either value of the (unused) `do_coreg` flag
and still replaces the anatomical affine with
`solve(spm_matrix(q0), original_affine)`, keeping the voxel data. -/
theorem claim_C6_all_stages_off (cb : Collab) (sd : SubjectData) (cfg : Config)
    (h1 : cfg.do_stc = false) (h2 : cfg.do_mc = false) (h3 : cfg.fwhm = none) :
    (do_subject_preproc cb sd cfg).output_func = sd.func ∧
    (∀ b : Bool,
      (do_subject_preproc cb sd { cfg with do_coreg := b }).output_anat.affine =
        lstsq (spm_matrix cb.cosq cb.sinq
          (cb.spm_coreg (vol0 sd.func) sd.anat.path)) sd.anat.affine) ∧
    (∀ b : Bool,
      (do_subject_preproc cb sd { cfg with do_coreg := b }).output_anat.data =
        sd.anat.data) := by
  obtain ⟨ns, dstc, so, il, rs, dmc, rm, dcor, fw, sb⟩ := cfg
  simp only at h1 h2 h3
  subst h1 h2 h3
  exact ⟨rfl, fun b => rfl, fun b => rfl⟩

/-- C6 witness: the theorem evaluated on a concrete configuration with all
optional stages disabled and `do_coreg := false`. -/
theorem claim_C6_all_stages_off_witness :
    (do_subject_preproc cb0 sd0 cfgOff).output_func = sd0.func ∧
    (do_subject_preproc cb0 sd0 { cfgOff with do_coreg := false }).output_anat.affine =
      lstsq (spm_matrix cb0.cosq cb0.sinq
        (cb0.spm_coreg (vol0 sd0.func) sd0.anat.path)) sd0.anat.affine ∧
    (do_subject_preproc cb0 sd0 { cfgOff with do_coreg := false }).output_anat.data =
      sd0.anat.data :=
  ⟨(claim_C6_all_stages_off cb0 sd0 cfgOff rfl rfl rfl).1,
   (claim_C6_all_stages_off cb0 sd0 cfgOff rfl rfl rfl).2.1 false,
   (claim_C6_all_stages_off cb0 sd0 cfgOff rfl rfl rfl).2.2 false⟩

/-- C9: the statistical design of every invocation is built from fixed
constants, independent of the subject data and all configuration flags:
repetition time 7, 96 scans, 16 blocks alternating rest and active, each of
duration 42 with onsets 42 * i for i = 0..15, and high-pass cutoff 168. -/
theorem claim_C9_fixed_paradigm (cb : Collab) (sd : SubjectData) (cfg : Config) :
    (do_subject_preproc cb sd cfg).glm_tr = 7 ∧
    (do_subject_preproc cb sd cfg).glm_n_scans = 96 ∧
    (do_subject_preproc cb sd cfg).glm_conditions =
      ["rest", "active", "rest", "active", "rest", "active", "rest", "active",
       "rest", "active", "rest", "active", "rest", "active", "rest", "active"] ∧
    (do_subject_preproc cb sd cfg).glm_duration = List.replicate 16 (42 : ℚ) ∧
    (do_subject_preproc cb sd cfg).glm_onset =
      (List.range 16).map (fun i => 42 * (i : ℚ)) ∧
    (do_subject_preproc cb sd cfg).glm_hfcut = 168 := by
  have he : epoch_duration = 42 := by norm_num [epoch_duration, durationBlocks, tr]
  refine ⟨rfl, rfl, rfl, ?_, ?_, ?_⟩
  · show duration = List.replicate 16 (42 : ℚ)
    rw [duration, he]
    decide
  · show onset = (List.range 16).map (fun i => 42 * (i : ℚ))
    have hr : List.range 16 = [0, 1, 2, 3, 4, 5, 6, 7, 8, 9, 10, 11, 12, 13, 14, 15] := rfl
    have hl : conditions.length = 16 := rfl
    simp only [onset, linspace, hl, hr, List.map_cons, List.map_nil]
    norm_num [epoch_duration, durationBlocks, tr]
  · show hfcut = 168
    norm_num [hfcut, epoch_duration, durationBlocks, tr]

lemma eyeRow_length (n i : ℕ) : (eyeRow n i).length = n := by simp [eyeRow]

lemma vsub_length (a b : List ℚ) : (vsub a b).length = min a.length b.length := by
  simp [vsub]

lemma cond_names_eval :
    cond_names = ["active", "active_derivative", "rest", "rest_derivative"] := by
  decide

lemma n_conditions_eval : n_conditions = 2 := by decide

lemma dmtx_names_eval (ar : Option (List (List ℚ))) (nd : ℕ) :
    dmtx_names ar nd = "active" :: "active_derivative" :: "rest" ::
      "rest_derivative" ::
      (reg_names (match ar with | none => 0 | some rs => (rs.headD []).length) ++
        drift_names nd) := by
  simp [dmtx_names, cond_names_eval]

lemma base_contrasts_eval (ar : Option (List (List ℚ))) (nd : ℕ) :
    base_contrasts (dmtx_names ar nd) =
      [("active", eyeRow (dmtx_names ar nd).length 0),
       ("rest", eyeRow (dmtx_names ar nd).length 2)] := by
  have hr2 : List.range 2 = [0, 1] := rfl
  simp [base_contrasts, n_conditions_eval, hr2, dmtx_names_eval ar nd]

lemma all_contrasts_eval (ar : Option (List (List ℚ))) (nd : ℕ) :
    all_contrasts (dmtx_names ar nd) =
      [("active", eyeRow (dmtx_names ar nd).length 0),
       ("rest", eyeRow (dmtx_names ar nd).length 2),
       ("active-rest", vsub (eyeRow (dmtx_names ar nd).length 0)
          (eyeRow (dmtx_names ar nd).length 2))] := by
  rw [all_contrasts, base_contrasts_eval ar nd]
  simp [lookupC, List.find?]

/-- C7: for any nuisance-regressor matrix and drift-column count, the two
main-effect contrast vectors are one-hot on their condition's main-effect
(non-derivative) column, the compound contrast `active-rest` equals the
elementwise difference of the `active` and `rest` vectors, and every
contrast vector in the set has length equal to the design matrix's column
count. -/
theorem claim_C7_contrast_vectors (ar : Option (List (List ℚ))) (nd : ℕ) :
    (all_contrasts (dmtx_names ar nd)).map (fun p => p.2.length) =
      [(dmtx_names ar nd).length, (dmtx_names ar nd).length,
       (dmtx_names ar nd).length] ∧
    (dmtx_names ar nd).getD 0 "" = "active" ∧
    (dmtx_names ar nd).getD 1 "" = "active_derivative" ∧
    (dmtx_names ar nd).getD 2 "" = "rest" ∧
    (dmtx_names ar nd).getD 3 "" = "rest_derivative" ∧
    lookupC (all_contrasts (dmtx_names ar nd)) "active" =
      eyeRow (dmtx_names ar nd).length 0 ∧
    lookupC (all_contrasts (dmtx_names ar nd)) "rest" =
      eyeRow (dmtx_names ar nd).length 2 ∧
    lookupC (all_contrasts (dmtx_names ar nd)) "active-rest" =
      vsub (eyeRow (dmtx_names ar nd).length 0)
        (eyeRow (dmtx_names ar nd).length 2) := by
  refine ⟨?_, ?_, ?_, ?_, ?_, ?_, ?_, ?_⟩
  · rw [all_contrasts_eval ar nd]
    simp [eyeRow_length, vsub_length]
  · rw [dmtx_names_eval ar nd]; rfl
  · rw [dmtx_names_eval ar nd]; rfl
  · rw [dmtx_names_eval ar nd]; rfl
  · rw [dmtx_names_eval ar nd]; rfl
  · rw [all_contrasts_eval ar nd]
    simp [lookupC, List.find?]
  · rw [all_contrasts_eval ar nd]
    simp [lookupC, List.find?]
  · rw [all_contrasts_eval ar nd]
    simp [lookupC, List.find?]

lemma saveContrast_pairs_eval (fs : List String) (statsDir cid : String)
    (maps : StatMaps) :
    saveContrast fs statsDir cid (contrast_map_pairs maps) =
      (ensure_dir (ensure_dir (ensure_dir (ensure_dir fs
          (map_dir statsDir "z")) (map_dir statsDir "t"))
          (map_dir statsDir "effects")) (map_dir statsDir "variance"),
       [(map_path statsDir "z" cid, maps.z_map),
        (map_path statsDir "t" cid, maps.t_map),
        (map_path statsDir "effects" cid, maps.eff_map),
        (map_path statsDir "variance" cid, maps.var_map)]) := by
  simp [saveContrast, contrast_map_pairs, map_types]

/-- C8: for every contrast processed, exactly four statistical map files
are persisted, one per map type z, t, effects, variance, each at
`<stats_output_dir>/<maptype>_maps/<contrast_id>.nii.gz`, with each
per-map-type subdirectory present afterwards (created when absent). -/
theorem claim_C8_four_maps (fs : List String) (statsDir cid : String)
    (maps : StatMaps) :
    (saveContrast fs statsDir cid (contrast_map_pairs maps)).2.map Prod.fst =
      [map_path statsDir "z" cid, map_path statsDir "t" cid,
       map_path statsDir "effects" cid, map_path statsDir "variance" cid] ∧
    (saveContrast fs statsDir cid (contrast_map_pairs maps)).2.length = 4 ∧
    map_dir statsDir "z" ∈ (saveContrast fs statsDir cid (contrast_map_pairs maps)).1 ∧
    map_dir statsDir "t" ∈ (saveContrast fs statsDir cid (contrast_map_pairs maps)).1 ∧
    map_dir statsDir "effects" ∈ (saveContrast fs statsDir cid (contrast_map_pairs maps)).1 ∧
    map_dir statsDir "variance" ∈ (saveContrast fs statsDir cid (contrast_map_pairs maps)).1 := by
  rw [saveContrast_pairs_eval fs statsDir cid maps]
  refine ⟨rfl, rfl, ?_, ?_, ?_, ?_⟩
  · exact mem_ensure_dir_of_mem _ _ _ (mem_ensure_dir_of_mem _ _ _
      (mem_ensure_dir_of_mem _ _ _ (mem_ensure_dir_self _ _)))
  · exact mem_ensure_dir_of_mem _ _ _ (mem_ensure_dir_of_mem _ _ _
      (mem_ensure_dir_self _ _))
  · exact mem_ensure_dir_of_mem _ _ _ (mem_ensure_dir_self _ _)
  · exact mem_ensure_dir_self _ _

/-- C10: when smoothing runs, the smoothed volumes of every session are
saved with prefix `s` and with basenames taken from the first session's
files (`output['func'][0]`), not from the session actually being smoothed
whenever the two differ. -/
theorem claim_C10_first_session_basenames (cb : Collab) (sd : SubjectData)
    (cfg : Config) (f : Fwhm) (hf : cfg.fwhm = some f)
    (hs : 1 < (do_subject_preproc cb sd cfg).func_before_smoothing.length)
    (i : ℕ)
    (hi : i < (do_subject_preproc cb sd cfg).func_before_smoothing.length) :
    basenames_used ((do_subject_preproc cb sd cfg).output_func.getD i (Ref.raw "")) =
      cb.get_basenames (vol0 (do_subject_preproc cb sd cfg).func_before_smoothing) ∧
    pfx_used ((do_subject_preproc cb sd cfg).output_func.getD i (Ref.raw "")) =
      some "s" ∧
    (cb.get_basenames
        ((do_subject_preproc cb sd cfg).func_before_smoothing.getD i (Ref.raw "")) ≠
       cb.get_basenames (vol0 (do_subject_preproc cb sd cfg).func_before_smoothing) →
      basenames_used ((do_subject_preproc cb sd cfg).output_func.getD i (Ref.raw "")) ≠
        cb.get_basenames
          ((do_subject_preproc cb sd cfg).func_before_smoothing.getD i (Ref.raw ""))) := by
  have ho : (do_subject_preproc cb sd cfg).output_func =
      ((do_subject_preproc cb sd cfg).func_before_smoothing).map
        (fun fn => Ref.smoothedSaved sd.output_dir
          (cb.get_basenames (vol0 (do_subject_preproc cb sd cfg).func_before_smoothing))
          "s" f fn) := by
    show (smoothStage cb sd.output_dir cfg.fwhm (preSmoothRun cb sd cfg).func).1 = _
    rw [hf]
    rfl
  have key : basenames_used
        ((do_subject_preproc cb sd cfg).output_func.getD i (Ref.raw "")) =
      cb.get_basenames (vol0 (do_subject_preproc cb sd cfg).func_before_smoothing) ∧
      pfx_used ((do_subject_preproc cb sd cfg).output_func.getD i (Ref.raw "")) =
        some "s" := by
    rw [ho]
    constructor <;>
      simp [List.getD_eq_getElem?_getD, List.getElem?_map,
        List.getElem?_eq_getElem hi, basenames_used, pfx_used]
  refine ⟨key.1, key.2, fun hne => ?_⟩
  rw [key.1]
  exact fun hcontra => hne hcontra.symm

/-- C10 witness: the theorem evaluated on a concrete two-session subject
whose sessions have distinct basenames, at the second session. -/
theorem claim_C10_first_session_basenames_witness :
    basenames_used
        ((do_subject_preproc cb0 sd2 cfgSmooth).output_func.getD 1 (Ref.raw "")) =
      cb0.get_basenames
        (vol0 (do_subject_preproc cb0 sd2 cfgSmooth).func_before_smoothing) ∧
    pfx_used ((do_subject_preproc cb0 sd2 cfgSmooth).output_func.getD 1 (Ref.raw "")) =
      some "s" :=
  ⟨(claim_C10_first_session_basenames cb0 sd2 cfgSmooth (5, 5, 5) rfl (by decide)
      1 (by decide)).1,
   (claim_C10_first_session_basenames cb0 sd2 cfgSmooth (5, 5, 5) rfl (by decide)
      1 (by decide)).2.1⟩

end SSP
